import Mathlib

/-!
Verification of the sylin real-time relay server (src/server.js).

The server keeps five in-memory stores:
  activeConnections : userId -> socket          (session registry)
  userStatus        : userId -> "online"/"offline"
  groupRooms        : groupId -> [userIds]      (forward membership map)
  userGroups        : userId -> [groupIds]      (reverse membership index)
  friendRequests    : [{sender_id, receiver_id, status}]

Each socket.io event handler is embedded as a Lean function from the event's
payload and the pre-state to a post-state plus a list of emissions.  Payload
fields are `Option`-typed because a JS client may omit any field; JavaScript
truthiness of a string field is `some s` with `s ≠ ""`, of a boolean field
`some true`.  Sockets are identified by numbers.  The uuid for a fresh group
or message id and the wall-clock timestamp are passed as explicit arguments.
-/

abbrev Identity := String
abbrev SocketId := Nat

/-- JS truthiness of an optional string field (absent and "" are falsy). -/
def truthy : Option String → Bool
  | none => false
  | some s => s != ""

/-- JS truthiness of an optional boolean field (absent and false are falsy). -/
def truthyB : Option Bool → Bool
  | none => false
  | some b => b

/-- One record of the friendRequests array: {sender_id, receiver_id, status}. -/
structure FriendRequest where
  sender_id : Identity
  receiver_id : Identity
  status : String
deriving DecidableEq, Repr

/-- The body of a direct `send-message` event; forwarded verbatim. -/
structure DirectMessage where
  content : Option String
  fileUrl : Option String
deriving DecidableEq, Repr

/-- Outbound event payloads (`socket.emit(event, payload)` shapes). -/
inductive Payload where
  /-- member-status {userId, status} -/
  | memberStatus (userId status : String)
  /-- group_created {group_id, name} -/
  | groupCreated (group_id name : String)
  /-- receive-message built by the group_message handler -/
  | receiveMessage (id : String) (group_id : String) (sender : String)
      (content : Option String) (type : String) (fileUrl : Option String)
      (timestamp : String)
  /-- receive-message: a direct message object forwarded verbatim -/
  | receiveDirect (m : DirectMessage)
  /-- friend_request {sender, timestamp} -/
  | friendRequestNotify (sender : String) (timestamp : Option String)
  /-- friend_request_sent {receiver, status, timestamp} -/
  | friendRequestSent (receiver status : String) (timestamp : Option String)
  /-- friend_request_response {receiver, accepted, timestamp} -/
  | friendRequestResponseNotify (receiver : String) (accepted : Option Bool)
      (timestamp : Option String)
  /-- friend_request_response_sent {sender, accepted, timestamp} -/
  | friendRequestResponseAck (sender : String) (accepted : Option Bool)
      (timestamp : Option String)
  /-- friend_request_response_sent {sender, status: not_found, timestamp} -/
  | friendRequestResponseNotFound (sender status : String)
      (timestamp : Option String)
deriving DecidableEq, Repr

/-- One outbound emission with its target. -/
inductive Emission where
  /-- `sock.emit(...)`: to one concrete socket (the caller or a looked-up one) -/
  | toSocket (sock : SocketId) (p : Payload)
  /-- `io.to(room).emit(...)`: to every socket in the room -/
  | toRoom (room : String) (p : Payload)
  /-- `socket.to(room).emit(...)`: to every socket in the room except sender -/
  | toRoomExcept (sender : SocketId) (room : String) (p : Payload)
deriving DecidableEq, Repr

/-- The server's in-memory stores plus the socket.io room membership. -/
structure ServerState where
  activeConnections : Identity → Option SocketId
  userStatus : Identity → Option String
  groupRooms : Identity → Option (List Identity)
  userGroups : Identity → Option (List Identity)
  friendRequests : List FriendRequest
  rooms : SocketId → List Identity

/-- `Map.set`: install/overwrite a key. -/
def mapSet {α : Type} (m : Identity → Option α) (k : Identity) (v : α) :
    Identity → Option α :=
  fun x => if x = k then some v else m x

/-- `Map.delete`: remove a key. -/
def mapDel {α : Type} (m : Identity → Option α) (k : Identity) :
    Identity → Option α :=
  fun x => if x = k then none else m x

/-- The empty store state at process start. -/
def initialState : ServerState where
  activeConnections := fun _ => none
  userStatus := fun _ => none
  groupRooms := fun _ => none
  userGroups := fun _ => none
  friendRequests := []
  rooms := fun _ => []

/-- `membersOf(G)`: the group's member list, empty if unknown. -/
def membersOf (st : ServerState) (g : Identity) : List Identity :=
  (st.groupRooms g).getD []

/-- `groupsOf(u)`: the groups the user belongs to, empty if none. -/
def groupsOf (st : ServerState) (u : Identity) : List Identity :=
  (st.userGroups u).getD []

/-- `socket.join(room)`: socket.io rooms are sets, joining twice is a no-op. -/
def roomJoin (sock : SocketId) (room : Identity) (rooms : SocketId → List Identity) :
    SocketId → List Identity :=
  fun x => if x = sock then (if room ∈ rooms sock then rooms sock else rooms sock ++ [room])
           else rooms x

/-- The connection handler body (lines 83-98): if the verified userId is
truthy, register the socket, set status online, and notify each of the
user's groups. -/
def connectHandler (userId : Identity) (sock : SocketId) (st : ServerState) :
    ServerState × List Emission :=
  if userId = "" then (st, [])
  else
    ({ st with
        activeConnections := mapSet st.activeConnections userId sock,
        userStatus := mapSet st.userStatus userId "online" },
     ((st.userGroups userId).getD []).map
       (fun g => .toRoomExcept sock g (.memberStatus userId "online")))

/-- The create_group handler (lines 106-134).  `groupId` stands for the
fresh uuid.  Stores `members || [userId]` as the member list, appends the
group only to the caller's userGroups, joins the socket room, confirms to
the caller. -/
def createGroupHandler (userId : Identity) (sock : SocketId) (groupId : Identity)
    (name : Option String) (members : Option (List Identity)) (st : ServerState) :
    ServerState × List Emission :=
  if !truthy name then (st, [])
  else
    ({ st with
        groupRooms := mapSet st.groupRooms groupId (members.getD [userId]),
        userGroups := mapSet st.userGroups userId
          ((st.userGroups userId).getD [] ++ [groupId]),
        rooms := roomJoin sock groupId st.rooms },
     [.toSocket sock (.groupCreated groupId (name.getD ""))])

/-- The join_room handler (lines 137-160).  Always joins the socket room;
if the room is a registered group, adds the user to the member list and the
group to the user's list, each only if not already present. -/
def joinRoomHandler (userId : Identity) (sock : SocketId) (room_id : Option String)
    (st : ServerState) : ServerState × List Emission :=
  match room_id with
  | none => (st, [])
  | some rid =>
    if rid = "" then (st, [])
    else
      let st1 := { st with rooms := roomJoin sock rid st.rooms }
      match st1.groupRooms rid with
      | none => (st1, [])
      | some members =>
        let members' := if userId ∈ members then members else members ++ [userId]
        let ug := (st1.userGroups userId).getD []
        let ug' := if rid ∈ ug then ug else ug ++ [rid]
        ({ st1 with
            groupRooms := mapSet st1.groupRooms rid members',
            userGroups := mapSet st1.userGroups userId ug' }, [])

/-- The group_message handler (lines 163-182).  `msgId` stands for the fresh
uuid, `ts` for the wall-clock ISO timestamp.  No store is mutated; on valid
shape the constructed message is broadcast to the group room. -/
def groupMessageHandler (userId : Identity) (msgId ts : String)
    (group_id content mtype fileUrl : Option String) (st : ServerState) :
    ServerState × List Emission :=
  if !truthy group_id || (!truthy content && !truthy fileUrl) then
    (st, [])
  else
    (st, [.toRoom (group_id.getD "")
      (.receiveMessage msgId (group_id.getD "") userId content
        (if truthy mtype then mtype.getD "" else "text") fileUrl ts)])

/-- The send-message handler (lines 185-197).  The guard reads
`message.content` after only checking `contactId`, so a present contactId
with an absent message object raises a TypeError (modelled as
`Except.error ()`); otherwise the message is forwarded verbatim to the
recipient's socket when one is registered. -/
def sendMessageHandler (userId : Identity) (contactId : Option String)
    (message : Option DirectMessage) (st : ServerState) :
    Except Unit (ServerState × List Emission) :=
  match contactId with
  | none => .ok (st, [])
  | some c =>
    if c = "" then .ok (st, [])
    else
      match message with
      | none => .error ()
      | some m =>
        if !truthy m.content && !truthy m.fileUrl then .ok (st, [])
        else
          match st.activeConnections c with
          | some rs => .ok (st, [.toSocket rs (.receiveDirect m)])
          | none => .ok (st, [])

/-- Does this record match a pending request for the ordered pair (s, r)? -/
def isPendingFor (s r : Identity) (fr : FriendRequest) : Bool :=
  fr.sender_id = s && fr.receiver_id = r && fr.status = "pending"

/-- The friend_request handler (lines 200-245): dedup on pending
(sender, receiver), else append a pending record, notify the receiver when
connected, ack the caller. -/
def friendRequestHandler (userId : Identity) (sock : SocketId)
    (receiver_id : Option String) (timestamp : Option String) (st : ServerState) :
    ServerState × List Emission :=
  match receiver_id with
  | none => (st, [])
  | some r =>
    if r = "" then (st, [])
    else if st.friendRequests.any (isPendingFor userId r) then
      (st, [.toSocket sock (.friendRequestSent r "already_sent" timestamp)])
    else
      ({ st with friendRequests := st.friendRequests ++ [⟨userId, r, "pending"⟩] },
       (match st.activeConnections r with
        | some rs => [Emission.toSocket rs (.friendRequestNotify userId timestamp)]
        | none => []) ++
       [.toSocket sock (.friendRequestSent r "sent" timestamp)])

/-- `findIndex` of the first pending (s, r) record followed by the in-place
status assignment: `none` when no pending record matches, otherwise the
ledger with the first matching record's status replaced. -/
def resolveFirst (s r status : String) : List FriendRequest → Option (List FriendRequest)
  | [] => none
  | fr :: rest =>
    if isPendingFor s r fr then some ({ fr with status := status } :: rest)
    else (resolveFirst s r status rest).map (fr :: ·)

/-- The friend_request_response handler (lines 248-290): locate the first
pending (sender_id, responder) record; if absent ack not_found to the
responder only; otherwise set its status from the truthiness of `accepted`,
notify the sender when connected, ack the responder. -/
def friendRequestResponseHandler (userId : Identity) (sock : SocketId)
    (sender_id : Option String) (accepted : Option Bool)
    (timestamp : Option String) (st : ServerState) : ServerState × List Emission :=
  match sender_id with
  | none => (st, [])
  | some s =>
    if s = "" then (st, [])
    else
      match resolveFirst s userId
          (if truthyB accepted then "accepted" else "rejected") st.friendRequests with
      | none =>
        (st, [.toSocket sock (.friendRequestResponseNotFound s "not_found" timestamp)])
      | some l' =>
        ({ st with friendRequests := l' },
         (match st.activeConnections s with
          | some ss => [Emission.toSocket ss
              (.friendRequestResponseNotify userId accepted timestamp)]
          | none => []) ++
         [.toSocket sock (.friendRequestResponseAck s accepted timestamp)])

/-- The disconnect handler (lines 293-311): delete the registry entry keyed
by the closure's userId, set status offline, notify the user's groups. -/
def disconnectHandler (userId : Identity) (sock : SocketId) (st : ServerState) :
    ServerState × List Emission :=
  if userId = "" then (st, [])
  else
    ({ st with
        activeConnections := mapDel st.activeConnections userId,
        userStatus := mapSet st.userStatus userId "offline" },
     ((st.userGroups userId).getD []).map
       (fun g => .toRoomExcept sock g (.memberStatus userId "offline")))

/-- One inbound event, tagged with the closure userId of the socket it
arrives on. -/
inductive Event where
  | connect (userId : Identity) (sock : SocketId)
  | createGroup (userId : Identity) (sock : SocketId) (groupId : Identity)
      (name : Option String) (members : Option (List Identity))
  | joinRoom (userId : Identity) (sock : SocketId) (room_id : Option String)
  | groupMessage (userId : Identity) (msgId ts : String)
      (group_id content mtype fileUrl : Option String)
  | sendMessage (userId : Identity) (contactId : Option String)
      (message : Option DirectMessage)
  | friendRequest (userId : Identity) (sock : SocketId)
      (receiver_id timestamp : Option String)
  | friendRequestResponse (userId : Identity) (sock : SocketId)
      (sender_id : Option String) (accepted : Option Bool)
      (timestamp : Option String)
  | disconnect (userId : Identity) (sock : SocketId)

/-- The state transition of one event (emissions discarded; a send-message
TypeError leaves the stores untouched since it is raised before any
mutation). -/
def step (st : ServerState) : Event → ServerState
  | .connect u s => (connectHandler u s st).1
  | .createGroup u s g name members => (createGroupHandler u s g name members st).1
  | .joinRoom u s rid => (joinRoomHandler u s rid st).1
  | .groupMessage u mid ts gid c ty f => (groupMessageHandler u mid ts gid c ty f st).1
  | .sendMessage u c m =>
      match sendMessageHandler u c m st with
      | .ok p => p.1
      | .error _ => st
  | .friendRequest u s rid ts => (friendRequestHandler u s rid ts st).1
  | .friendRequestResponse u s sid a ts =>
      (friendRequestResponseHandler u s sid a ts st).1
  | .disconnect u s => (disconnectHandler u s st).1

/-- States reachable from process start by any event sequence. -/
inductive Reachable : ServerState → Prop where
  | init : Reachable initialState
  | next {st : ServerState} (e : Event) : Reachable st → Reachable (step st e)

/-- The spec's membership invariant: forward map and reverse index agree. -/
def groupConsistent (st : ServerState) : Prop :=
  ∀ u g, u ∈ membersOf st g ↔ g ∈ groupsOf st u

/-- Presence derived from session existence: online iff a registry entry is
live, and offline status implies no entry. -/
def presenceInv (st : ServerState) : Prop :=
  ∀ u, (st.userStatus u = some "online" ↔ (st.activeConnections u).isSome = true) ∧
       (st.userStatus u = some "offline" → st.activeConnections u = none)

/-! ## Helper lemmas -/

theorem mapSet_self {α : Type} (m : Identity → Option α) (k : Identity) (v : α) :
    mapSet m k v k = some v := by
  simp [mapSet]

theorem mapSet_other {α : Type} (m : Identity → Option α) {k x : Identity} (v : α)
    (h : x ≠ k) : mapSet m k v x = m x := by
  simp [mapSet, h]

theorem mapSet_fixpoint {α : Type} (m : Identity → Option α) (k : Identity) (v : α)
    (h : m k = some v) : mapSet m k v = m := by
  funext x
  by_cases hx : x = k
  · simp [mapSet, hx, h.symm]
  · simp [mapSet, hx]

/-- The state after "alice" creates a group "g1" with explicit member list
["bob"] from an empty server. -/
def exSt : ServerState :=
  (createGroupHandler "alice" 0 "g1" (some "grp") (some ["bob"]) initialState).1

/-- C1: the claim that the forward map and the reverse index stay consistent
on every mutation is refuted at create_group: after "alice" creates "g1"
with member list ["bob"], "bob" is in the member set of "g1" but "g1" is
absent from "bob"'s group set, so the invariant fails. -/
theorem consistency_broken_after_create :
    "bob" ∈ membersOf exSt "g1" ∧ "g1" ∉ groupsOf exSt "bob" ∧
    ¬ groupConsistent exSt := by
  refine ⟨by decide, by decide, fun hc => ?_⟩
  exact absurd ((hc "bob" "g1").mp (by decide)) (by decide)

/-- C2: the claim that the created member set is M united with the caller is
refuted: after "alice" creates "g1" with member list ["bob"], the stored
member set is exactly ["bob"] — the caller is not added — and "bob"'s group
set does not contain "g1". -/
theorem create_group_member_set_not_union :
    membersOf exSt "g1" = ["bob"] ∧ "alice" ∉ membersOf exSt "g1" ∧
    "g1" ∉ groupsOf exSt "bob" := by
  decide

/-- C2 (amended): with a truthy name, create_group stores exactly the given
member list (defaulting to [caller] only when the list is absent), the new
group id is appended to the caller's group set, and every other user's
group set is untouched. -/
theorem create_group_stores_list (st : ServerState) (u : Identity) (sock : SocketId)
    (g : Identity) (name : Option String) (members : Option (List Identity))
    (hn : truthy name = true) :
    (createGroupHandler u sock g name members st).1.groupRooms g
      = some (members.getD [u]) ∧
    g ∈ groupsOf (createGroupHandler u sock g name members st).1 u ∧
    (∀ v, v ≠ u → (createGroupHandler u sock g name members st).1.userGroups v
      = st.userGroups v) := by
  refine ⟨by simp [createGroupHandler, hn, mapSet], ?_, ?_⟩
  · simp [createGroupHandler, hn, groupsOf, mapSet]
  · intro v hv
    simp [createGroupHandler, hn, mapSet, hv]

/-- Witness for create_group_stores_list at a concrete input. -/
theorem create_group_stores_list_witness :
    (createGroupHandler "alice" 0 "g1" (some "grp") (some ["bob"]) initialState).1.groupRooms "g1"
      = some ((some ["bob"]).getD ["alice"]) ∧
    "g1" ∈ groupsOf (createGroupHandler "alice" 0 "g1" (some "grp") (some ["bob"]) initialState).1 "alice" ∧
    (∀ v, v ≠ "alice" →
      (createGroupHandler "alice" 0 "g1" (some "grp") (some ["bob"]) initialState).1.userGroups v
        = initialState.userGroups v) :=
  create_group_stores_list initialState "alice" 0 "g1" (some "grp") (some ["bob"]) (by decide)

/-- C3: every handler drops an event missing a checked required field with
no store mutation and no emission — except send-message, whose guard reads
`message.content` after only checking `contactId`, so a truthy contactId
with an absent message object raises a TypeError instead of being dropped. -/
theorem malformed_dropped_except_absent_body (st : ServerState) (u : Identity) :
    (∀ sock g members, createGroupHandler u sock g none members st = (st, [])) ∧
    (∀ sock, joinRoomHandler u sock none st = (st, [])) ∧
    (∀ mid ts c ty f, groupMessageHandler u mid ts none c ty f st = (st, [])) ∧
    (∀ mid ts g ty, groupMessageHandler u mid ts g none ty none st = (st, [])) ∧
    sendMessageHandler u none none st = .ok (st, []) ∧
    (∀ sock ts, friendRequestHandler u sock none ts st = (st, [])) ∧
    (∀ sock a ts, friendRequestResponseHandler u sock none a ts st = (st, [])) ∧
    sendMessageHandler u (some "bob") none st = .error () := by
  refine ⟨fun sock g members => rfl, fun sock => rfl, fun mid ts c ty f => rfl,
    fun mid ts g ty => by simp [groupMessageHandler, truthy],
    rfl, fun sock ts => rfl, fun sock a ts => rfl, rfl⟩

/-- C4: registering the same identity on two sockets in succession leaves
the second socket as the unique live handle, with status online; the
operation is total (no error path). -/
theorem register_twice_keeps_second (st : ServerState) (u : Identity)
    (s1 s2 : SocketId) (hu : u ≠ "") :
    (connectHandler u s2 (connectHandler u s1 st).1).1.activeConnections u
      = some s2 ∧
    (connectHandler u s2 (connectHandler u s1 st).1).1.userStatus u
      = some "online" := by
  simp [connectHandler, hu, mapSet]

/-- Witness for register_twice_keeps_second at a concrete input. -/
theorem register_twice_keeps_second_witness :
    (connectHandler "alice" 1 (connectHandler "alice" 0 initialState).1).1.activeConnections "alice"
      = some 1 ∧
    (connectHandler "alice" 1 (connectHandler "alice" 0 initialState).1).1.userStatus "alice"
      = some "online" :=
  register_twice_keeps_second initialState "alice" 0 1 (by decide)

/-- C9: after a reconnect replaces the first socket, a disconnect arriving
from the replaced first socket still deletes the registry entry (which holds
the live second socket) and marks the identity offline. -/
theorem stale_disconnect_removes_live (st : ServerState) (u : Identity)
    (s1 s2 : SocketId) (hu : u ≠ "") :
    (connectHandler u s2 (connectHandler u s1 st).1).1.activeConnections u
      = some s2 ∧
    (disconnectHandler u s1 (connectHandler u s2 (connectHandler u s1 st).1).1).1.activeConnections u
      = none ∧
    (disconnectHandler u s1 (connectHandler u s2 (connectHandler u s1 st).1).1).1.userStatus u
      = some "offline" := by
  simp [connectHandler, disconnectHandler, hu, mapSet, mapDel]

/-- Witness for stale_disconnect_removes_live at a concrete input. -/
theorem stale_disconnect_removes_live_witness :
    (connectHandler "alice" 1 (connectHandler "alice" 0 initialState).1).1.activeConnections "alice"
      = some 1 ∧
    (disconnectHandler "alice" 0 (connectHandler "alice" 1 (connectHandler "alice" 0 initialState).1).1).1.activeConnections "alice"
      = none ∧
    (disconnectHandler "alice" 0 (connectHandler "alice" 1 (connectHandler "alice" 0 initialState).1).1).1.userStatus "alice"
      = some "offline" :=
  stale_disconnect_removes_live initialState "alice" 0 1 (by decide)

/-! ## Friend-request ledger lemmas -/

theorem isPendingFor_record (s r : Identity) : isPendingFor s r ⟨s, r, "pending"⟩ = true := by
  simp [isPendingFor]

theorem resolveFirst_none_of_count (s r status : String) (l : List FriendRequest)
    (h : l.countP (isPendingFor s r) = 0) : resolveFirst s r status l = none := by
  induction l with
  | nil => rfl
  | cons fr rest ih =>
    rw [List.countP_cons] at h
    by_cases hp : isPendingFor s r fr = true
    · simp [hp] at h
    · have hp' : isPendingFor s r fr = false := by
        exact Bool.not_eq_true _ |>.mp hp
      simp only [hp', Bool.false_eq_true, if_false, Nat.add_zero] at h
      simp only [resolveFirst, hp', Bool.false_eq_true, if_false]
      rw [ih h, Option.map_none']

theorem resolveFirst_some_of_count (s r status : String) (l : List FriendRequest)
    (h : l.countP (isPendingFor s r) ≠ 0) :
    ∃ l', resolveFirst s r status l = some l' := by
  induction l with
  | nil => simp [List.countP_nil] at h
  | cons fr rest ih =>
    by_cases hp : isPendingFor s r fr = true
    · exact ⟨{ fr with status := status } :: rest, by simp [resolveFirst, hp]⟩
    · have hp' : isPendingFor s r fr = false := Bool.not_eq_true _ |>.mp hp
      rw [List.countP_cons] at h
      simp only [hp', Bool.false_eq_true, if_false, Nat.add_zero] at h
      obtain ⟨l', hl'⟩ := ih h
      exact ⟨fr :: l', by simp [resolveFirst, hp', hl']⟩

theorem resolveFirst_count_sub (s r status : String) (l : List FriendRequest)
    (hst : status ≠ "pending") :
    ∀ l', resolveFirst s r status l = some l' →
      l'.countP (isPendingFor s r) = l.countP (isPendingFor s r) - 1 := by
  induction l with
  | nil => intro l' h; exact absurd h (by simp [resolveFirst])
  | cons fr rest ih =>
    intro l' h
    by_cases hp : isPendingFor s r fr = true
    · simp only [resolveFirst, hp, if_true, Option.some.injEq] at h
      subst h
      rw [List.countP_cons, List.countP_cons]
      have hnp : isPendingFor s r { fr with status := status } = false := by
        simp [isPendingFor, hst]
      simp [hp, hnp]
    · have hp' : isPendingFor s r fr = false := Bool.not_eq_true _ |>.mp hp
      simp only [resolveFirst, hp', Bool.false_eq_true, if_false,
        Option.map_eq_some'] at h
      obtain ⟨rest', hrest', hl'⟩ := h
      subst hl'
      rw [List.countP_cons, List.countP_cons, ih rest' hrest']
      simp [hp']

theorem status_choice_ne_pending (a : Option Bool) :
    (if truthyB a then "accepted" else "rejected") ≠ "pending" := by
  by_cases h : truthyB a = true <;> simp [h]

/-- C5: a first friend_request for a pair with no pending record appends
exactly one pending record and acks "sent"; an immediate second request
acks "already_sent" to the caller only, mutates nothing, and the ledger
holds exactly one pending record for the ordered pair. -/
theorem friend_request_dedup (st : ServerState) (s r : Identity)
    (sock1 sock2 : SocketId) (ts1 ts2 : Option String) (hr : r ≠ "")
    (h0 : st.friendRequests.countP (isPendingFor s r) = 0) :
    (friendRequestHandler s sock1 (some r) ts1 st).1.friendRequests
      = st.friendRequests ++ [⟨s, r, "pending"⟩] ∧
    (friendRequestHandler s sock1 (some r) ts1 st).2.getLast?
      = some (.toSocket sock1 (.friendRequestSent r "sent" ts1)) ∧
    friendRequestHandler s sock2 (some r) ts2 (friendRequestHandler s sock1 (some r) ts1 st).1
      = ((friendRequestHandler s sock1 (some r) ts1 st).1,
         [.toSocket sock2 (.friendRequestSent r "already_sent" ts2)]) ∧
    (friendRequestHandler s sock1 (some r) ts1 st).1.friendRequests.countP (isPendingFor s r)
      = 1 := by
  have hany : st.friendRequests.any (isPendingFor s r) = false := by
    rw [List.any_eq_false]
    intro x hx
    exact (List.countP_eq_zero.mp h0) x hx
  have hfirst : friendRequestHandler s sock1 (some r) ts1 st
      = ({ st with friendRequests := st.friendRequests ++ [⟨s, r, "pending"⟩] },
         (match st.activeConnections r with
          | some rs => [Emission.toSocket rs (.friendRequestNotify s ts1)]
          | none => []) ++
         [.toSocket sock1 (.friendRequestSent r "sent" ts1)]) := by
    simp [friendRequestHandler, hr, hany]
  have hcount1 : (st.friendRequests ++ [(⟨s, r, "pending"⟩ : FriendRequest)]).countP
      (isPendingFor s r) = 1 := by
    rw [List.countP_append, h0]
    simp [List.countP_cons, isPendingFor_record]
  have hany1 : (st.friendRequests ++ [(⟨s, r, "pending"⟩ : FriendRequest)]).any
      (isPendingFor s r) = true := by
    rw [List.any_eq_true]
    exact ⟨⟨s, r, "pending"⟩, by simp, isPendingFor_record s r⟩
  refine ⟨by rw [hfirst], by rw [hfirst]; exact List.getLast?_concat .., ?_, by rw [hfirst]; exact hcount1⟩
  rw [hfirst]
  simp [friendRequestHandler, hr, hany1]

/-- Witness for friend_request_dedup at a concrete input. -/
theorem friend_request_dedup_witness :
    (friendRequestHandler "alice" 0 (some "bob") none initialState).1.friendRequests
      = initialState.friendRequests ++ [⟨"alice", "bob", "pending"⟩] ∧
    (friendRequestHandler "alice" 0 (some "bob") none initialState).2.getLast?
      = some (.toSocket 0 (.friendRequestSent "bob" "sent" none)) ∧
    friendRequestHandler "alice" 1 (some "bob") none
        (friendRequestHandler "alice" 0 (some "bob") none initialState).1
      = ((friendRequestHandler "alice" 0 (some "bob") none initialState).1,
         [.toSocket 1 (.friendRequestSent "bob" "already_sent" none)]) ∧
    (friendRequestHandler "alice" 0 (some "bob") none initialState).1.friendRequests.countP
        (isPendingFor "alice" "bob") = 1 :=
  friend_request_dedup initialState "alice" "bob" 0 1 none none (by decide) (by decide)

/-- A concrete state with one pending request from "alice" to "bob" and
"alice" connected on socket 5. -/
def pendingSt : ServerState :=
  { initialState with
      friendRequests := [⟨"alice", "bob", "pending"⟩],
      activeConnections := mapSet initialState.activeConnections "alice" 5 }

/-- C6: with exactly one pending (sender, receiver) record, a first
friend_request_response resolves it (no pending record remains and the
responder gets the resolved ack); a second response for the same pair
returns not_found to the responder only with no ledger mutation, and a
response with no matching pending record likewise acks not_found and
changes nothing. -/
theorem friend_response_final (st : ServerState) (s r : Identity)
    (sock1 sock2 : SocketId) (a1 a2 : Option Bool) (ts1 ts2 : Option String)
    (hs : s ≠ "")
    (h1 : st.friendRequests.countP (isPendingFor s r) = 1) :
    (friendRequestResponseHandler r sock1 (some s) a1 ts1 st).1.friendRequests.countP
        (isPendingFor s r) = 0 ∧
    (friendRequestResponseHandler r sock1 (some s) a1 ts1 st).2.getLast?
      = some (.toSocket sock1 (.friendRequestResponseAck s a1 ts1)) ∧
    friendRequestResponseHandler r sock2 (some s) a2 ts2
        (friendRequestResponseHandler r sock1 (some s) a1 ts1 st).1
      = ((friendRequestResponseHandler r sock1 (some s) a1 ts1 st).1,
         [.toSocket sock2 (.friendRequestResponseNotFound s "not_found" ts2)]) ∧
    (∀ st0 : ServerState, st0.friendRequests.countP (isPendingFor s r) = 0 →
      friendRequestResponseHandler r sock2 (some s) a2 ts2 st0
        = (st0, [.toSocket sock2 (.friendRequestResponseNotFound s "not_found" ts2)])) := by
  have hnf : ∀ (st0 : ServerState),
      st0.friendRequests.countP (isPendingFor s r) = 0 →
      friendRequestResponseHandler r sock2 (some s) a2 ts2 st0
        = (st0, [.toSocket sock2 (.friendRequestResponseNotFound s "not_found" ts2)]) := by
    intro st0 h0
    have hres := resolveFirst_none_of_count s r
      (if truthyB a2 then "accepted" else "rejected") st0.friendRequests h0
    simp [friendRequestResponseHandler, hs, hres]
  obtain ⟨l1, hl1⟩ := resolveFirst_some_of_count s r
    (if truthyB a1 then "accepted" else "rejected") st.friendRequests (by omega)
  have hcount0 : l1.countP (isPendingFor s r) = 0 := by
    rw [resolveFirst_count_sub s r _ st.friendRequests
      (status_choice_ne_pending a1) l1 hl1, h1]
  have hfirst : friendRequestResponseHandler r sock1 (some s) a1 ts1 st
      = ({ st with friendRequests := l1 },
         (match st.activeConnections s with
          | some ss => [Emission.toSocket ss (.friendRequestResponseNotify r a1 ts1)]
          | none => []) ++
         [.toSocket sock1 (.friendRequestResponseAck s a1 ts1)]) := by
    simp [friendRequestResponseHandler, hs, hl1]
  refine ⟨by rw [hfirst]; exact hcount0,
    by rw [hfirst]; exact List.getLast?_concat ..,
    by rw [hfirst]; exact hnf _ hcount0,
    fun st0 h0 => hnf st0 h0⟩

/-- Witness for friend_response_final at a concrete input. -/
theorem friend_response_final_witness :
    (friendRequestResponseHandler "bob" 1 (some "alice") (some true) none pendingSt).1.friendRequests.countP
        (isPendingFor "alice" "bob") = 0 ∧
    (friendRequestResponseHandler "bob" 1 (some "alice") (some true) none pendingSt).2.getLast?
      = some (.toSocket 1 (.friendRequestResponseAck "alice" (some true) none)) ∧
    friendRequestResponseHandler "bob" 2 (some "alice") (some true) none
        (friendRequestResponseHandler "bob" 1 (some "alice") (some true) none pendingSt).1
      = ((friendRequestResponseHandler "bob" 1 (some "alice") (some true) none pendingSt).1,
         [.toSocket 2 (.friendRequestResponseNotFound "alice" "not_found" none)]) ∧
    friendRequestResponseHandler "bob" 2 (some "alice") (some true) none initialState
      = (initialState,
         [.toSocket 2 (.friendRequestResponseNotFound "alice" "not_found" none)]) := by
  have h := friend_response_final pendingSt "alice" "bob" 1 2 (some true) (some true)
    none none (by decide) (by decide)
  exact ⟨h.1, h.2.1, h.2.2.1, h.2.2.2 initialState (by decide)⟩

/-- C10: the accepted field is not validated: with a matching pending
record, an absent or falsy accepted value still resolves the record, the
status written is "rejected", and both the notification to the sender and
the ack to the responder carry the received accepted value unchanged. -/
theorem falsy_accepted_rejects (st : ServerState) (s r : Identity) (sock : SocketId)
    (a : Option Bool) (ts : Option String) (hs : s ≠ "") (ha : truthyB a = false)
    (hp : st.friendRequests.countP (isPendingFor s r) ≠ 0) :
    resolveFirst s r "rejected" st.friendRequests
      = some (friendRequestResponseHandler r sock (some s) a ts st).1.friendRequests ∧
    (friendRequestResponseHandler r sock (some s) a ts st).2.getLast?
      = some (.toSocket sock (.friendRequestResponseAck s a ts)) ∧
    (∀ ss, st.activeConnections s = some ss →
      (friendRequestResponseHandler r sock (some s) a ts st).2
        = [.toSocket ss (.friendRequestResponseNotify r a ts),
           .toSocket sock (.friendRequestResponseAck s a ts)]) := by
  obtain ⟨l1, hl1⟩ := resolveFirst_some_of_count s r
    (if truthyB a then "accepted" else "rejected") st.friendRequests hp
  have hl1' : resolveFirst s r "rejected" st.friendRequests = some l1 := by
    rw [ha] at hl1
    simpa using hl1
  have hfirst : friendRequestResponseHandler r sock (some s) a ts st
      = ({ st with friendRequests := l1 },
         (match st.activeConnections s with
          | some ss => [Emission.toSocket ss (.friendRequestResponseNotify r a ts)]
          | none => []) ++
         [.toSocket sock (.friendRequestResponseAck s a ts)]) := by
    simp [friendRequestResponseHandler, hs, hl1]
  refine ⟨by rw [hfirst]; exact hl1',
    by rw [hfirst]; exact List.getLast?_concat .., ?_⟩
  intro ss hss
  rw [hfirst]
  simp [hss]

/-- Witness for falsy_accepted_rejects at a concrete input. -/
theorem falsy_accepted_rejects_witness :
    resolveFirst "alice" "bob" "rejected" pendingSt.friendRequests
      = some (friendRequestResponseHandler "bob" 1 (some "alice") none none pendingSt).1.friendRequests ∧
    (friendRequestResponseHandler "bob" 1 (some "alice") none none pendingSt).2.getLast?
      = some (.toSocket 1 (.friendRequestResponseAck "alice" none none)) ∧
    (friendRequestResponseHandler "bob" 1 (some "alice") none none pendingSt).2
      = [.toSocket 5 (.friendRequestResponseNotify "bob" none none),
         .toSocket 1 (.friendRequestResponseAck "alice" none none)] := by
  have h := falsy_accepted_rejects pendingSt "alice" "bob" 1 none none
    (by decide) (by decide) (by decide)
  exact ⟨h.1, h.2.1, h.2.2 5 (by decide)⟩

/-! ## join_room characterization -/

theorem joinRoomHandler_nogroup (st : ServerState) (u : Identity) (sock : SocketId)
    (r : Identity) (hr : r ≠ "") (hm : st.groupRooms r = none) :
    joinRoomHandler u sock (some r) st
      = ({ st with rooms := roomJoin sock r st.rooms }, []) := by
  simp [joinRoomHandler, hr, hm]

theorem joinRoomHandler_group (st : ServerState) (u : Identity) (sock : SocketId)
    (r : Identity) (members : List Identity) (hr : r ≠ "")
    (hm : st.groupRooms r = some members) :
    joinRoomHandler u sock (some r) st
      = ({ st with
            rooms := roomJoin sock r st.rooms,
            groupRooms := mapSet st.groupRooms r
              (if u ∈ members then members else members ++ [u]),
            userGroups := mapSet st.userGroups u
              (if r ∈ (st.userGroups u).getD [] then (st.userGroups u).getD []
               else (st.userGroups u).getD [] ++ [r]) }, []) := by
  simp [joinRoomHandler, hr, hm]

theorem joinRoomHandler_noop (st : ServerState) (u : Identity) (sock : SocketId)
    (r : Identity) (m ug : List Identity) (hr : r ≠ "")
    (hm : st.groupRooms r = some m) (hu : u ∈ m)
    (hug : st.userGroups u = some ug) (hrug : r ∈ ug) :
    (joinRoomHandler u sock (some r) st).1.groupRooms = st.groupRooms ∧
    (joinRoomHandler u sock (some r) st).1.userGroups = st.userGroups := by
  rw [joinRoomHandler_group st u sock r m hr hm]
  constructor
  · show mapSet st.groupRooms r (if u ∈ m then m else m ++ [u]) = st.groupRooms
    rw [if_pos hu]
    exact mapSet_fixpoint _ _ _ hm
  · show mapSet st.userGroups u
        (if r ∈ (st.userGroups u).getD [] then (st.userGroups u).getD []
         else (st.userGroups u).getD [] ++ [r]) = st.userGroups
    simp only [hug, Option.getD_some]
    rw [if_pos hrug]
    exact mapSet_fixpoint _ _ _ hug

/-- C7: join_room is idempotent: performing the same join twice leaves the
forward member map and the reverse group index after the second call
identical to their values after the first call — no duplicate entries. -/
theorem joinRoom_idempotent (st : ServerState) (u : Identity) (sock : SocketId)
    (rid : Option String) :
    (joinRoomHandler u sock rid (joinRoomHandler u sock rid st).1).1.groupRooms
      = (joinRoomHandler u sock rid st).1.groupRooms ∧
    (joinRoomHandler u sock rid (joinRoomHandler u sock rid st).1).1.userGroups
      = (joinRoomHandler u sock rid st).1.userGroups := by
  match rid with
  | none => exact ⟨rfl, rfl⟩
  | some r =>
    by_cases hr : r = ""
    · subst hr
      exact ⟨rfl, rfl⟩
    cases hm : st.groupRooms r with
    | none =>
      rw [joinRoomHandler_nogroup st u sock r hr hm]
      have hm2 : ({ st with rooms := roomJoin sock r st.rooms } : ServerState).groupRooms r
          = none := hm
      rw [joinRoomHandler_nogroup _ u sock r hr hm2]
      exact ⟨rfl, rfl⟩
    | some members =>
      rw [joinRoomHandler_group st u sock r members hr hm]
      have hu : u ∈ (if u ∈ members then members else members ++ [u]) := by
        by_cases h : u ∈ members <;> simp [h]
      have hrug : r ∈ (if r ∈ (st.userGroups u).getD []
          then (st.userGroups u).getD [] else (st.userGroups u).getD [] ++ [r]) := by
        by_cases h : r ∈ (st.userGroups u).getD [] <;> simp [h]
      exact joinRoomHandler_noop _ u sock r _ _ hr (mapSet_self ..) hu
        (mapSet_self ..) hrug

/-! ## Consistency of the membership maps -/

theorem initial_consistent : groupConsistent initialState := by
  intro u g
  simp [membersOf, groupsOf, initialState]

theorem join_membersOf (st : ServerState) (u : Identity) (sock : SocketId)
    (r : Identity) (members : List Identity) (hr : r ≠ "")
    (hm : st.groupRooms r = some members) (g : Identity) :
    membersOf (joinRoomHandler u sock (some r) st).1 g
      = if g = r then (if u ∈ members then members else members ++ [u])
        else membersOf st g := by
  rw [joinRoomHandler_group st u sock r members hr hm]
  by_cases hg : g = r <;> simp [membersOf, mapSet, hg]

theorem join_groupsOf (st : ServerState) (u : Identity) (sock : SocketId)
    (r : Identity) (members : List Identity) (hr : r ≠ "")
    (hm : st.groupRooms r = some members) (v : Identity) :
    groupsOf (joinRoomHandler u sock (some r) st).1 v
      = if v = u then (if r ∈ groupsOf st u then groupsOf st u else groupsOf st u ++ [r])
        else groupsOf st v := by
  rw [joinRoomHandler_group st u sock r members hr hm]
  by_cases hv : v = u <;> simp [groupsOf, mapSet, hv]

theorem join_preserves_consistent (st : ServerState) (u : Identity) (sock : SocketId)
    (rid : Option String) (hc : groupConsistent st) :
    groupConsistent (joinRoomHandler u sock rid st).1 := by
  match rid with
  | none => exact hc
  | some r =>
    by_cases hr : r = ""
    · subst hr
      exact hc
    cases hm : st.groupRooms r with
    | none =>
      rw [joinRoomHandler_nogroup st u sock r hr hm]
      exact hc
    | some members =>
      intro v g
      rw [join_membersOf st u sock r members hr hm g,
          join_groupsOf st u sock r members hr hm v]
      have hmem : membersOf st r = members := by simp [membersOf, hm]
      by_cases hg : g = r <;> by_cases hv : v = u
      · rw [if_pos hg, if_pos hv]
        refine ⟨fun _ => ?_, fun _ => ?_⟩
        · rw [hg]
          by_cases h : r ∈ groupsOf st u <;> simp [h]
        · rw [hv]
          by_cases h : u ∈ members <;> simp [h]
      · rw [if_pos hg, if_neg hv]
        have hvm : (v ∈ if u ∈ members then members else members ++ [u])
            ↔ v ∈ members := by
          by_cases h : u ∈ members <;> simp [h, hv]
        rw [hvm, hg, ← hmem]
        exact hc v r
      · rw [if_neg hg, if_pos hv]
        have hgu : (g ∈ if r ∈ groupsOf st u then groupsOf st u
            else groupsOf st u ++ [r]) ↔ g ∈ groupsOf st u := by
          by_cases h : r ∈ groupsOf st u <;> simp [h, hg]
        rw [hgu, hv]
        exact hc u g
      · rw [if_neg hg, if_neg hv]
        exact hc v g

theorem createGroup_default_membersOf (st : ServerState) (u : Identity)
    (sock : SocketId) (g : Identity) (name : Option String)
    (hn : truthy name = true) (g' : Identity) :
    membersOf (createGroupHandler u sock g name none st).1 g'
      = if g' = g then [u] else membersOf st g' := by
  by_cases hg : g' = g <;> simp [createGroupHandler, hn, membersOf, mapSet, hg]

theorem createGroup_default_groupsOf (st : ServerState) (u : Identity)
    (sock : SocketId) (g : Identity) (name : Option String)
    (hn : truthy name = true) (v : Identity) :
    groupsOf (createGroupHandler u sock g name none st).1 v
      = if v = u then groupsOf st u ++ [g] else groupsOf st v := by
  by_cases hv : v = u <;> simp [createGroupHandler, hn, groupsOf, mapSet, hv]

theorem create_default_preserves_consistent (st : ServerState) (u : Identity)
    (sock : SocketId) (g : Identity) (name : Option String)
    (hc : groupConsistent st) (hfresh : st.groupRooms g = none) :
    groupConsistent (createGroupHandler u sock g name none st).1 := by
  by_cases hn : truthy name = true
  · intro v g'
    rw [createGroup_default_membersOf st u sock g name hn g',
        createGroup_default_groupsOf st u sock g name hn v]
    by_cases hg : g' = g <;> by_cases hv : v = u
    · rw [if_pos hg, if_pos hv, hg, hv]
      simp
    · rw [if_pos hg, if_neg hv, hg]
      refine ⟨fun hvm => absurd (List.mem_singleton.mp hvm) hv, fun hgv => ?_⟩
      have h2 := (hc v g).mpr hgv
      simp [membersOf, hfresh] at h2
    · rw [if_neg hg, if_pos hv, hv, List.mem_append]
      simp only [List.mem_singleton, hg, or_false]
      exact hc u g'
    · rw [if_neg hg, if_neg hv]
      exact hc v g'
  · have hn' : truthy name = false := Bool.not_eq_true _ |>.mp hn
    simp only [createGroupHandler, hn', Bool.not_false, if_true]
    exact hc

/-- C1 (amended): the forward map and reverse index are kept consistent by
join_room (the invariant is preserved), and by create_group only in its
default branch (member list absent, fresh group id, storing the caller
alone); with an explicit member list create_group breaks the invariant, as
consistency_broken_after_create shows. -/
theorem group_maps_consistency (st : ServerState) (hc : groupConsistent st) :
    (∀ u sock rid, groupConsistent (joinRoomHandler u sock rid st).1) ∧
    (∀ u sock g name, st.groupRooms g = none →
      groupConsistent (createGroupHandler u sock g name none st).1) :=
  ⟨fun u sock rid => join_preserves_consistent st u sock rid hc,
   fun u sock g name hfresh =>
     create_default_preserves_consistent st u sock g name hc hfresh⟩

/-- Witness for group_maps_consistency at a concrete input. -/
theorem group_maps_consistency_witness :
    groupConsistent (joinRoomHandler "alice" 0 (some "g1") initialState).1 ∧
    groupConsistent (createGroupHandler "alice" 0 "g2" (some "grp") none initialState).1 := by
  have h := group_maps_consistency initialState initial_consistent
  exact ⟨h.1 "alice" 0 (some "g1"), h.2 "alice" 0 "g2" (some "grp") rfl⟩

/-! ## Presence invariant over all reachable states -/

theorem createGroup_presence (u : Identity) (sock : SocketId) (g : Identity)
    (name : Option String) (members : Option (List Identity)) (st : ServerState) :
    (createGroupHandler u sock g name members st).1.activeConnections
      = st.activeConnections ∧
    (createGroupHandler u sock g name members st).1.userStatus = st.userStatus := by
  by_cases hn : truthy name = true
  · simp [createGroupHandler, hn]
  · have hn' : truthy name = false := Bool.not_eq_true _ |>.mp hn
    simp [createGroupHandler, hn']

theorem joinRoom_presence (u : Identity) (sock : SocketId) (rid : Option String)
    (st : ServerState) :
    (joinRoomHandler u sock rid st).1.activeConnections = st.activeConnections ∧
    (joinRoomHandler u sock rid st).1.userStatus = st.userStatus := by
  match rid with
  | none => exact ⟨rfl, rfl⟩
  | some r =>
    by_cases hr : r = ""
    · subst hr
      exact ⟨rfl, rfl⟩
    cases hm : st.groupRooms r with
    | none =>
      rw [joinRoomHandler_nogroup st u sock r hr hm]
      exact ⟨rfl, rfl⟩
    | some members =>
      rw [joinRoomHandler_group st u sock r members hr hm]
      exact ⟨rfl, rfl⟩

theorem groupMessage_state (u : Identity) (mid ts : String)
    (gid c ty f : Option String) (st : ServerState) :
    (groupMessageHandler u mid ts gid c ty f st).1 = st := by
  unfold groupMessageHandler
  split <;> rfl

theorem sendMessage_state (u : Identity) (c : Option String)
    (m : Option DirectMessage) (st : ServerState) :
    (match sendMessageHandler u c m st with
     | .ok p => p.1
     | .error _ => st) = st := by
  unfold sendMessageHandler
  rcases c with _ | cc
  · rfl
  · by_cases hcc : cc = ""
    · simp [hcc]
    · rcases m with _ | mm
      · simp [hcc]
      · by_cases hb : (!truthy mm.content && !truthy mm.fileUrl) = true
        · simp [hcc, hb]
        · rcases hav : st.activeConnections cc with _ | rs <;> simp [hcc, hb, hav]

theorem friendRequest_presence (u : Identity) (sock : SocketId)
    (rid ts : Option String) (st : ServerState) :
    (friendRequestHandler u sock rid ts st).1.activeConnections
      = st.activeConnections ∧
    (friendRequestHandler u sock rid ts st).1.userStatus = st.userStatus := by
  unfold friendRequestHandler
  rcases rid with _ | r
  · exact ⟨rfl, rfl⟩
  · by_cases hr : r = ""
    · simp [hr]
    · by_cases he : st.friendRequests.any (isPendingFor u r) = true
      · simp [hr, he]
      · simp [hr, he]

theorem friendResponse_presence (u : Identity) (sock : SocketId)
    (sid : Option String) (a : Option Bool) (ts : Option String) (st : ServerState) :
    (friendRequestResponseHandler u sock sid a ts st).1.activeConnections
      = st.activeConnections ∧
    (friendRequestResponseHandler u sock sid a ts st).1.userStatus
      = st.userStatus := by
  unfold friendRequestResponseHandler
  rcases sid with _ | s
  · exact ⟨rfl, rfl⟩
  · by_cases hs : s = ""
    · simp [hs]
    · cases hres : resolveFirst s u
        (if truthyB a then "accepted" else "rejected") st.friendRequests with
      | none => simp [hs, hres]
      | some l' => simp [hs, hres]

theorem initial_presence : presenceInv initialState := by
  intro u
  simp [initialState, presenceInv]

theorem step_preserves_presence (st : ServerState) (e : Event)
    (h : presenceInv st) : presenceInv (step st e) := by
  cases e with
  | connect u s =>
    by_cases hu : u = ""
    · have hstep : step st (.connect u s) = st := by
        simp [step, connectHandler, hu]
      rw [hstep]
      exact h
    · have hstep : step st (.connect u s)
          = { st with activeConnections := mapSet st.activeConnections u s,
                      userStatus := mapSet st.userStatus u "online" } := by
        simp [step, connectHandler, hu]
      rw [hstep]
      intro v
      by_cases hv : v = u
      · simp [mapSet, hv]
      · simpa [mapSet, hv] using h v
  | disconnect u s =>
    by_cases hu : u = ""
    · have hstep : step st (.disconnect u s) = st := by
        simp [step, disconnectHandler, hu]
      rw [hstep]
      exact h
    · have hstep : step st (.disconnect u s)
          = { st with activeConnections := mapDel st.activeConnections u,
                      userStatus := mapSet st.userStatus u "offline" } := by
        simp [step, disconnectHandler, hu]
      rw [hstep]
      intro v
      by_cases hv : v = u
      · simp [mapSet, mapDel, hv]
      · simpa [mapSet, mapDel, hv] using h v
  | createGroup u sock g name members =>
    intro v
    simp only [step]
    rw [(createGroup_presence u sock g name members st).1,
        (createGroup_presence u sock g name members st).2]
    exact h v
  | joinRoom u sock rid =>
    intro v
    simp only [step]
    rw [(joinRoom_presence u sock rid st).1, (joinRoom_presence u sock rid st).2]
    exact h v
  | groupMessage u mid ts gid c ty f =>
    intro v
    simp only [step]
    rw [groupMessage_state u mid ts gid c ty f st]
    exact h v
  | sendMessage u c m =>
    intro v
    simp only [step]
    rw [sendMessage_state u c m st]
    exact h v
  | friendRequest u sock rid ts =>
    intro v
    simp only [step]
    rw [(friendRequest_presence u sock rid ts st).1,
        (friendRequest_presence u sock rid ts st).2]
    exact h v
  | friendRequestResponse u sock sid a ts =>
    intro v
    simp only [step]
    rw [(friendResponse_presence u sock sid a ts st).1,
        (friendResponse_presence u sock sid a ts st).2]
    exact h v

/-- C8: in every state reachable from process start, presence is derived
from session existence: an identity's status is online iff it has a live
registry entry, and offline status implies no entry; register and
unregister mutate the two maps together and no other event touches them. -/
theorem presence_matches_sessions (st : ServerState) (h : Reachable st) :
    presenceInv st := by
  induction h with
  | init => exact initial_presence
  | next e _ ih => exact step_preserves_presence _ e ih

/-- Witness for presence_matches_sessions at a concrete input. -/
theorem presence_matches_sessions_witness : presenceInv initialState :=
  presence_matches_sessions initialState Reachable.init
